import Mathlib

/-!
Verification development for the `file_scanner` repository.

The Python modules under `src/file_scanner` are shallowly embedded as Lean
definitions: filename stems are lists of characters, the regular expressions
of `core/file_parser.py` become hand-rolled leftmost-search matchers, the
SQLite stores of `database/` and `services/database_service.py` become pure
record stores with explicit transaction semantics, and filesystem effects
(`stat`, `iterdir`) are supplied as explicit inputs.
-/

namespace FileScanner

/-! ## Character classes and scanning primitives

`re.search` on the patterns used by this code base always returns the
leftmost position at which the pattern matches; the per-pattern `matchAt`
functions below decide a match anchored at one position and report the
matched length.  All patterns here are over ASCII text, so `\d`, `[A-Z]`
and `\w` are modelled by their ASCII character ranges.
-/

def isUpperAZ (c : Char) : Bool := 'A' ≤ c && c ≤ 'Z'

def isLowerAZ (c : Char) : Bool := 'a' ≤ c && c ≤ 'z'

def isDigitCh (c : Char) : Bool := '0' ≤ c && c ≤ '9'

/-- ASCII `\w`: letters, digits and underscore. -/
def isWordCh (c : Char) : Bool := isUpperAZ c || isLowerAZ c || isDigitCh c || c = '_'

/-- Length of the maximal run of characters satisfying `p` at the front. -/
def runLen (p : Char → Bool) : List Char → Nat
  | [] => 0
  | c :: cs => if p c then runLen p cs + 1 else 0

/-- Numeric value of a digit string (this is what Python `int(...)` returns
on a `\d+` capture). -/
def digitsVal (l : List Char) : Nat :=
  l.foldl (fun a c => a * 10 + (c.toNat - '0'.toNat)) 0

/-- Leftmost search: try `matchAt` at position 0, 1, ... (including the
position at the end of the string), as `re.search` does. -/
def searchFrom {α : Type} (matchAt : List Char → Option α) : List Char → Option (Nat × α)
  | [] => (matchAt []).map (fun m => (0, m))
  | c :: cs =>
    match matchAt (c :: cs) with
    | some m => some (0, m)
    | none => (searchFrom matchAt cs).map (fun p => (p.1 + 1, p.2))

/-- First `some` in a list of options (a `for`/`break` loop over patterns). -/
def firstSome {α : Type} : List (Option α) → Option α
  | [] => none
  | some a :: _ => some a
  | none :: os => firstSome os

/-! ## Project-code patterns (`FileNameParser.PROJECT_PATTERNS`,
also `ProjectCodeMatcher.PATTERNS` in `directory_parser.py`)

Greedy bounded repetition followed by a literal `-` can only succeed when
the repetition takes the whole homogeneous run (a digit or upper-case
letter is never `-`), so each matcher takes the maximal run and checks the
bounds; this is exactly the backtracking behaviour of the Python regexes. -/

/-- `[A-Z]{2,4}-\d{3,6}` anchored at the front; returns the match length. -/
def matchProj1 (s : List Char) : Option Nat :=
  let u := runLen isUpperAZ s
  if 2 ≤ u ∧ u ≤ 4 then
    match s.drop u with
    | '-' :: rest =>
      let d := runLen isDigitCh rest
      if 3 ≤ d then some (u + 1 + min d 6) else none
    | _ => none
  else none

/-- `\d{4,6}-[A-Z]{2,4}` anchored at the front. -/
def matchProj2 (s : List Char) : Option Nat :=
  let d := runLen isDigitCh s
  if 4 ≤ d ∧ d ≤ 6 then
    match s.drop d with
    | '-' :: rest =>
      let u := runLen isUpperAZ rest
      if 2 ≤ u then some (d + 1 + min u 4) else none
    | _ => none
  else none

/-- `PRJ-\d{4,6}` anchored at the front. -/
def matchProj3 (s : List Char) : Option Nat :=
  match s with
  | 'P' :: 'R' :: 'J' :: '-' :: rest =>
    let d := runLen isDigitCh rest
    if 4 ≤ d then some (4 + min d 6) else none
  | _ => none

/-- `P\d{5,8}` anchored at the front. -/
def matchProj4 (s : List Char) : Option Nat :=
  match s with
  | 'P' :: rest =>
    let d := runLen isDigitCh rest
    if 5 ≤ d then some (1 + min d 8) else none
  | _ => none

/-- The ordered `PROJECT_PATTERNS` table with its confidences; the named
group `code` spans the whole pattern in all four entries. -/
def projectPatterns : List ((List Char → Option Nat) × ℚ) :=
  [(matchProj1, 9/10), (matchProj2, 9/10), (matchProj3, 8/10), (matchProj4, 7/10)]

/-- First pattern that matches anywhere wins; yields (code, confidence,
`match.start()`). -/
def extractProjectCode (s : List Char) : Option (String × ℚ × Nat) :=
  firstSome (projectPatterns.map (fun pc =>
    (searchFrom pc.1 s).map (fun im => (String.mk ((s.drop im.1).take im.2), pc.2, im.1))))

/-! ## Version patterns (`VERSION_PATTERNS`) -/

/-- Length consumed by a maximal `(\.\d+)*` at the front.  Nothing follows
this subpattern in any of the version regexes except `$`, and shortening it
always leaves a digit or `.` as the next character, so the greedy maximal
run is the match Python finds. -/
def dotRunF : Nat → List Char → Nat
  | 0, _ => 0
  | fuel + 1, s =>
    match s with
    | '.' :: rest =>
      let d := runLen isDigitCh rest
      if 1 ≤ d then 1 + d + dotRunF fuel (rest.drop d) else 0
    | _ => 0

/-- `\d+(\.\d+)*` anchored at the front; returns the capture length. -/
def matchVerCore (s : List Char) : Option Nat :=
  let d := runLen isDigitCh s
  if 1 ≤ d then some (d + dotRunF (s.drop d).length (s.drop d)) else none

/-- `[vV](?P<version>\d+(\.\d+)*)`; returns the capture length (the match
is one character longer). -/
def matchVer1 : List Char → Option Nat
  | c :: rest => if c = 'v' ∨ c = 'V' then matchVerCore rest else none
  | [] => none

/-- `[rR](?P<version>\d+(\.\d+)*)`. -/
def matchVer2 : List Char → Option Nat
  | c :: rest => if c = 'r' ∨ c = 'R' then matchVerCore rest else none
  | [] => none

/-- `_(?P<version>\d+(\.\d+)*)$`. -/
def matchVer3 : List Char → Option Nat
  | '_' :: rest =>
    match matchVerCore rest with
    | some k => if rest.drop k = [] then some k else none
    | none => none
  | _ => none

/-- Ordered version patterns, first match wins; yields (version string,
`match.start()`).  In all three patterns the capture starts one character
after the match start. -/
def extractVersion (s : List Char) : Option (String × Nat) :=
  firstSome ([matchVer1, matchVer2, matchVer3].map (fun m =>
    (searchFrom m s).map (fun ik => (String.mk ((s.drop (ik.1 + 1)).take ik.2), ik.1))))

/-! ## Date patterns (`DATE_PATTERNS`) and `datetime.strptime` validation -/

/-- A calendar date as produced by `datetime.strptime` (time fields are
always zero for these formats and are omitted). -/
structure PDate where
  year : Nat
  month : Nat
  day : Nat
deriving DecidableEq

def isLeapYear (y : Nat) : Bool := (y % 4 == 0 && y % 100 != 0) || y % 400 == 0

def daysInMonth (y m : Nat) : Nat :=
  if m = 2 then (if isLeapYear y then 29 else 28)
  else if m = 4 ∨ m = 6 ∨ m = 9 ∨ m = 11 then 30 else 31

/-- The range checks `datetime.strptime` applies (`datetime` years run
from 1 to 9999); out of range raises `ValueError`, modelled as `none`. -/
def mkValidDate (y m d : Nat) : Option PDate :=
  if 1 ≤ y ∧ y ≤ 9999 ∧ 1 ≤ m ∧ m ≤ 12 ∧ 1 ≤ d ∧ d ≤ daysInMonth y m then
    some ⟨y, m, d⟩
  else none

/-- `(?P<date>\d{4}-\d{2}-\d{2})` anchored at the front. -/
def matchISO : List Char → Option Nat
  | a :: b :: c :: d :: e :: f :: g :: h :: i :: j :: _ =>
    if isDigitCh a && isDigitCh b && isDigitCh c && isDigitCh d && e = '-' &&
       isDigitCh f && isDigitCh g && h = '-' && isDigitCh i && isDigitCh j then
      some 10
    else none
  | _ => none

/-- `(?P<date>\d{8})` anchored at the front. -/
def matchCompact : List Char → Option Nat
  | a :: b :: c :: d :: e :: f :: g :: h :: _ =>
    if isDigitCh a && isDigitCh b && isDigitCh c && isDigitCh d &&
       isDigitCh e && isDigitCh f && isDigitCh g && isDigitCh h then
      some 8
    else none
  | _ => none

/-- `(?P<date>\d{2}-\d{2}-\d{4})` anchored at the front. -/
def matchDMY : List Char → Option Nat
  | a :: b :: c :: d :: e :: f :: g :: h :: i :: j :: _ =>
    if isDigitCh a && isDigitCh b && c = '-' && isDigitCh d && isDigitCh e &&
       f = '-' && isDigitCh g && isDigitCh h && isDigitCh i && isDigitCh j then
      some 10
    else none
  | _ => none

/-- `strptime(text, "%Y-%m-%d")` on a 10-character `dddd-dd-dd` capture. -/
def parseISOdate (t : List Char) : Option PDate :=
  mkValidDate (digitsVal (t.take 4)) (digitsVal ((t.drop 5).take 2))
    (digitsVal ((t.drop 8).take 2))

/-- `strptime(text, "%Y%m%d")` on an 8-digit capture. -/
def parseCompactDate (t : List Char) : Option PDate :=
  mkValidDate (digitsVal (t.take 4)) (digitsVal ((t.drop 4).take 2))
    (digitsVal ((t.drop 6).take 2))

/-- `strptime(text, "%d-%m-%Y")` on a 10-character `dd-dd-dddd` capture. -/
def parseDMYDate (t : List Char) : Option PDate :=
  mkValidDate (digitsVal ((t.drop 6).take 4)) (digitsVal ((t.drop 3).take 2))
    (digitsVal (t.take 2))

/-- One iteration of the date loop: `re.search` the pattern, and if the
(first) match's captured text fails `strptime` (`ValueError`), report
failure so the loop continues with the next pattern. -/
def tryDatePattern (matchAt : List Char → Option Nat) (parse : List Char → Option PDate)
    (s : List Char) : Option (PDate × List Char × Nat) :=
  match searchFrom matchAt s with
  | some (i, len) =>
    match parse ((s.drop i).take len) with
    | some dt => some (dt, (s.drop i).take len, i)
    | none => none
  | none => none

/-- The date loop of `parse_file_name`: ISO, then compact, then DD-MM-YYYY;
first pattern whose captured text is a real calendar date wins. -/
def extractDate (s : List Char) : Option (PDate × List Char × Nat) :=
  match tryDatePattern matchISO parseISOdate s with
  | some r => some r
  | none =>
    match tryDatePattern matchCompact parseCompactDate s with
    | some r => some r
    | none => tryDatePattern matchDMY parseDMYDate s

/-! ## Sequence, discipline and status -/

/-- `_(\d+)(?=_|$)` anchored at the front; returns the digit count.  The
lookahead can only hold for the maximal digit run (any shorter run is
followed by a digit). -/
def matchSeq : List Char → Option Nat
  | '_' :: rest =>
    let d := runLen isDigitCh rest
    if 1 ≤ d then
      match rest.drop d with
      | [] => some d
      | '_' :: _ => some d
      | _ => none
    else none
  | _ => none

/-- Sequence extraction: yields (`int` value of the capture, `match.start()`). -/
def extractSequence (s : List Char) : Option (Nat × Nat) :=
  (searchFrom matchSeq s).map (fun id_ => (digitsVal ((s.drop (id_.1 + 1)).take id_.2), id_.1))

/-- The `DISCIPLINES` table in its Python insertion order. -/
def DISCIPLINES : List (String × String) :=
  [("ARCH", "Architecture"), ("STR", "Structural"),
   ("MEP", "Mechanical/Electrical/Plumbing"), ("CIVIL", "Civil"),
   ("LAND", "Landscape"), ("INT", "Interior"), ("GEN", "General")]

/-- The `STATUS_TERMS` table in its Python insertion order. -/
def STATUS_TERMS : List (String × String) :=
  [("DRAFT", "Draft"), ("REVIEW", "Under Review"), ("APPROVED", "Approved"),
   ("FINAL", "Final"), ("ISSUED", "Issued"), ("WIP", "Work in Progress"),
   ("SUPERSEDED", "Superseded"), ("ARCHIVED", "Archived")]

/-- First index at which `needle` occurs as a contiguous sublist
(Python `str.find`), `none` when absent (`in` returns `False`). -/
def indexOfSub (needle : List Char) : List Char → Option Nat
  | [] => if needle.isPrefixOf ([] : List Char) then some 0 else none
  | c :: cs =>
    if needle.isPrefixOf (c :: cs) then some 0
    else (indexOfSub needle cs).map (· + 1)

/-- Substring-membership loop over a vocabulary table applied to the
upper-cased stem; first entry found wins, position is `str.find`. -/
def extractTable : List (String × String) → List Char → Option (String × Nat)
  | [], _ => none
  | (code, desc) :: rest, upperName =>
    match indexOfSub code.data upperName with
    | some i => some (desc, i)
    | none => extractTable rest upperName

/-! ## `FileNameParser.parse_file_name` -/

/-- `NameComponent`: the `type` field of the Python dataclass is `ctype`
here (`type` names a universe in Lean). -/
structure NameComponent where
  ctype : String
  value : String
  confidence : ℚ
  position : Nat
deriving DecidableEq

structure ParsedName where
  original : String
  components : List NameComponent
  project_code : Option String
  version : Option String
  date : Option PDate
  sequence : Option Nat
  discipline : Option String
  status : Option String
deriving DecidableEq

/-- Stable insertion keeping earlier components first among equal
positions, matching Python's stable `sorted(..., key=lambda x: x.position)`. -/
def insertByPos (x : NameComponent) : List NameComponent → List NameComponent
  | [] => [x]
  | y :: ys => if y.position ≤ x.position then y :: insertByPos x ys else x :: y :: ys

def sortByPosition (l : List NameComponent) : List NameComponent :=
  l.foldl (fun acc x => insertByPos x acc) []

/-- The components list in the order `parse_file_name` appends them,
before the final position sort. -/
def rawComponents (s : List Char) : List NameComponent :=
  ((extractProjectCode s).map (fun ci =>
      ({ ctype := "project_code", value := ci.1, confidence := ci.2.1,
         position := ci.2.2 } : NameComponent))).toList ++
  ((extractVersion s).map (fun vi =>
      ({ ctype := "version", value := vi.1, confidence := 1, position := vi.2 }
        : NameComponent))).toList ++
  ((extractDate s).map (fun di =>
      ({ ctype := "date", value := String.mk di.2.1, confidence := 1,
         position := di.2.2 } : NameComponent))).toList ++
  ((extractSequence s).map (fun ni =>
      ({ ctype := "sequence", value := toString ni.1, confidence := 1,
         position := ni.2 } : NameComponent))).toList ++
  ((extractTable DISCIPLINES (s.map Char.toUpper)).map (fun di =>
      ({ ctype := "discipline", value := di.1, confidence := 1, position := di.2 }
        : NameComponent))).toList ++
  ((extractTable STATUS_TERMS (s.map Char.toUpper)).map (fun ti =>
      ({ ctype := "status", value := ti.1, confidence := 1, position := ti.2 }
        : NameComponent))).toList

/-- `FileNameParser.parse_file_name` applied to a filename stem. -/
def parseFileName (stem : String) : ParsedName :=
  let s := stem.data
  { original := stem
    components := sortByPosition (rawComponents s)
    project_code := (extractProjectCode s).map (fun ci => ci.1)
    version := (extractVersion s).map (fun vi => vi.1)
    date := (extractDate s).map (fun di => di.1)
    sequence := (extractSequence s).map (fun ni => ni.1)
    discipline := (extractTable DISCIPLINES (s.map Char.toUpper)).map (fun di => di.1)
    status := (extractTable STATUS_TERMS (s.map Char.toUpper)).map (fun ti => ti.1) }

lemma insertByPos_perm (x : NameComponent) (l : List NameComponent) :
    (insertByPos x l).Perm (x :: l) := by
  induction l with
  | nil => simp [insertByPos]
  | cons y ys ih =>
    simp only [insertByPos]
    split
    · exact (ih.cons y).trans (List.Perm.swap x y ys)
    · exact List.Perm.refl _

lemma sortByPosition_perm (l : List NameComponent) : (sortByPosition l).Perm l := by
  suffices h : ∀ acc, ((l.foldl (fun a x => insertByPos x a) acc)).Perm (acc ++ l) by
    simpa [sortByPosition] using h []
  induction l with
  | nil => intro acc; simp
  | cons x xs ih =>
    intro acc
    simp only [List.foldl_cons]
    exact (ih (insertByPos x acc)).trans
      (((insertByPos_perm x acc).append_right xs).trans List.perm_middle.symm)

lemma optSection_le {α : Type} (o : Option α) (f : α → NameComponent) (lbl : String)
    (hf : ∀ a, (f a).ctype = lbl) (t : String) :
    (((o.map f).toList).filter (fun c => c.ctype == t)).length ≤ if lbl = t then 1 else 0 := by
  cases o with
  | none => simp
  | some a =>
    by_cases h : lbl = t
    · subst h
      simp only [Option.map_some', Option.toList_some, List.filter, hf a]
      split <;> simp
    · have hne : ((f a).ctype == t) = false := by
        rw [hf a]; exact beq_eq_false_iff_ne.mpr h
      simp [List.filter, hne, h]

lemma indicatorSum_le_one (t : String) :
    (if "project_code" = t then 1 else 0) +
      (if "version" = t then 1 else 0) +
      (if "date" = t then 1 else 0) +
      (if "sequence" = t then 1 else 0) +
      (if "discipline" = t then 1 else 0) +
      (if "status" = t then 1 else 0) ≤ 1 := by
  by_cases h1 : "project_code" = t
  · subst h1; decide
  · by_cases h2 : "version" = t
    · subst h2; decide
    · by_cases h3 : "date" = t
      · subst h3; decide
      · by_cases h4 : "sequence" = t
        · subst h4; decide
        · by_cases h5 : "discipline" = t
          · subst h5; decide
          · by_cases h6 : "status" = t
            · subst h6; decide
            · simp [h1, h2, h3, h4, h5, h6]

lemma rawComponents_count_le_one (s : List Char) (t : String) :
    ((rawComponents s).filter (fun c => c.ctype == t)).length ≤ 1 := by
  unfold rawComponents
  simp only [List.filter_append, List.length_append]
  refine le_trans ?_ (indicatorSum_le_one t)
  exact Nat.add_le_add
    (Nat.add_le_add
      (Nat.add_le_add
        (Nat.add_le_add
          (Nat.add_le_add (optSection_le _ _ "project_code" (fun a => rfl) t)
            (optSection_le _ _ "version" (fun a => rfl) t))
          (optSection_le _ _ "date" (fun a => rfl) t))
        (optSection_le _ _ "sequence" (fun a => rfl) t))
      (optSection_le _ _ "discipline" (fun a => rfl) t))
    (optSection_le _ _ "status" (fun a => rfl) t)

/-- C5: `parse_file_name` on the stem `"ABC-1234_v2.1_2023-05-01_FINAL"`
yields project code `"ABC-1234"`, version `"2.1"`, date 2023-05-01 and
status `"Final"`, and for every stem the parsed components hold at most one
entry per category. -/
theorem parse_file_name_spec :
    ((parseFileName "ABC-1234_v2.1_2023-05-01_FINAL").project_code = some "ABC-1234" ∧
     (parseFileName "ABC-1234_v2.1_2023-05-01_FINAL").version = some "2.1" ∧
     (parseFileName "ABC-1234_v2.1_2023-05-01_FINAL").date = some ⟨2023, 5, 1⟩ ∧
     (parseFileName "ABC-1234_v2.1_2023-05-01_FINAL").status = some "Final") ∧
    ∀ stem t,
      ((parseFileName stem).components.filter (fun c => c.ctype == t)).length ≤ 1 := by
  refine ⟨by decide, ?_⟩
  intro stem t
  have hp : ((parseFileName stem).components).Perm (rawComponents stem.data) :=
    sortByPosition_perm _
  rw [(hp.filter (fun c => c.ctype == t)).length_eq]
  exact rawComponents_count_le_one _ t

/-- C6: the date loop tries ISO `YYYY-MM-DD`, compact `YYYYMMDD`, then
`DD-MM-YYYY` in that order; the first pattern whose first match parses as a
real calendar date wins, and a pattern whose matched text fails validation
(e.g. month 13) is skipped in favour of the next pattern. -/
theorem extractDate_order_spec (s : List Char) :
    (∀ r, tryDatePattern matchISO parseISOdate s = some r → extractDate s = some r) ∧
    (tryDatePattern matchISO parseISOdate s = none →
      ∀ r, tryDatePattern matchCompact parseCompactDate s = some r →
        extractDate s = some r) ∧
    (tryDatePattern matchISO parseISOdate s = none →
      tryDatePattern matchCompact parseCompactDate s = none →
      extractDate s = tryDatePattern matchDMY parseDMYDate s) ∧
    (∀ i len, searchFrom matchISO s = some (i, len) →
      parseISOdate ((s.drop i).take len) = none →
      tryDatePattern matchISO parseISOdate s = none) := by
  refine ⟨?_, ?_, ?_, ?_⟩
  · intro r h; simp [extractDate, h]
  · intro h1 r h2; simp [extractDate, h1, h2]
  · intro h1 h2; simp [extractDate, h1, h2]
  · intro i len h1 h2; simp [tryDatePattern, h1, h2]

/-- Witness for C6: in `"2023-13-01_20230501"` the ISO pattern matches
`"2023-13-01"` but month 13 fails validation, so the compact pattern's
`"20230501"` (at position 11) supplies the date 2023-05-01. -/
theorem extractDate_order_spec_witness :
    tryDatePattern matchISO parseISOdate ("2023-13-01_20230501".data) = none ∧
    extractDate ("2023-13-01_20230501".data) =
      some (⟨2023, 5, 1⟩, "20230501".data, 11) :=
  ⟨by decide, (extractDate_order_spec _).2.1 (by decide) _ (by decide)⟩

/-! ## `directory_parser.py`: `DirectoryAnalyzer`

The filesystem is supplied as an explicit tree.  File entries are
represented by their stems, which is all `_analyze_recursive` reads from
them (`f.stem` for project codes, prefixes and naming patterns).  Python
`dict`s are insertion-ordered association lists; a Python `set` built by
`set.add` is a deduplicated insertion-ordered list.  A metadata value can
be a `str` or a `set`, hence `MetaVal`. -/

inductive MetaVal where
  | str (v : String)
  | strSet (v : List String)
deriving DecidableEq

mutual

inductive FSTree where
  | node (path : String) (files : List String) (subdirs : FSForest)

inductive FSForest where
  | nil
  | cons (head : FSTree) (tail : FSForest)

end

/-- `DirectoryGroup`; the Python field `common_prefix` is `common_pfx`
here. -/
inductive DirGroup where
  | mk (path : String) (level : Nat) (pattern : Option String)
      (project_code : Option String) (common_pfx : Option String)
      (file_count : Nat) (subdirs : List DirGroup) (files : List String)
      (metadata : List (String × MetaVal))

def DirGroup.path : DirGroup → String
  | .mk p _ _ _ _ _ _ _ _ => p

def DirGroup.pattern : DirGroup → Option String
  | .mk _ _ pat _ _ _ _ _ _ => pat

def DirGroup.project_code : DirGroup → Option String
  | .mk _ _ _ pc _ _ _ _ _ => pc

def DirGroup.common_pfx : DirGroup → Option String
  | .mk _ _ _ _ cp _ _ _ _ => cp

def DirGroup.file_count : DirGroup → Nat
  | .mk _ _ _ _ _ fc _ _ _ => fc

def DirGroup.metadata : DirGroup → List (String × MetaVal)
  | .mk _ _ _ _ _ _ _ _ md => md

/-- Python string `<` (lexicographic on code points). -/
def charsLt : List Char → List Char → Bool
  | [], [] => false
  | [], _ :: _ => true
  | _ :: _, [] => false
  | a :: as, b :: bs => if a < b then true else if b < a then false else charsLt as bs

def strLtB (a b : String) : Bool := charsLt a.data b.data

def strLeB (a b : String) : Bool := !strLtB b a

/-- Stable insertion sort; Python `sorted` is stable, and stable sorts
agree on any list. -/
def insertLe {α : Type} (le : α → α → Bool) (x : α) : List α → List α
  | [] => [x]
  | y :: ys => if le y x then y :: insertLe le x ys else x :: y :: ys

def sortLe {α : Type} (le : α → α → Bool) (l : List α) : List α :=
  l.foldl (fun acc x => insertLe le x acc) []

/-- Python `min` over a nonempty string list (first minimum). -/
def minStr : String → List String → String
  | m, [] => m
  | m, x :: xs => minStr (if strLtB x m then x else m) xs

/-- Python `max` over a nonempty string list (first maximum). -/
def maxStr : String → List String → String
  | m, [] => m
  | m, x :: xs => maxStr (if strLtB m x then x else m) xs

/-- Character-wise comparison of `s1` against `s2`, returning `s1[:i]` at
the first mismatch and all of `s1` if it is exhausted.  (`s2` cannot be
exhausted first when `s1 = min names ≤ max names = s2`.) -/
def commonPfxChars : List Char → List Char → List Char
  | c :: cs, d :: ds => if c = d then c :: commonPfxChars cs ds else []
  | _, _ => []

/-- `DirectoryAnalyzer._find_common_prefix`. -/
def findCommonPfx : List String → Option String
  | [] => none
  | n :: ns => some (String.mk (commonPfxChars (minStr n ns).data (maxStr n ns).data))

/-- `ProjectCodeMatcher.match`: same four ordered patterns as
`FileNameParser.PROJECT_PATTERNS`, returning the `code` group. -/
def projectCodeMatcherMatch (text : String) : Option String :=
  firstSome ([matchProj1, matchProj2, matchProj3, matchProj4].map (fun m =>
    (searchFrom m text.data).map (fun im => String.mk ((text.data.drop im.1).take im.2))))

/-- `VersionMatcher.match`: same three ordered patterns as
`FileNameParser.VERSION_PATTERNS`, returning the `version` group. -/
def versionMatcherMatch (text : String) : Option String :=
  firstSome ([matchVer1, matchVer2, matchVer3].map (fun m =>
    (searchFrom m text.data).map (fun ik => String.mk ((text.data.drop (ik.1 + 1)).take ik.2))))

/-- The `project_codes` set: codes of the direct file stems, deduplicated
in insertion order. -/
def collectCodes (names : List String) : List String :=
  names.foldl (fun acc n =>
    match projectCodeMatcherMatch n with
    | some c => if acc.contains c then acc else acc ++ [c]
    | none => acc) []

def joinSep (sep : String) : List String → String
  | [] => ""
  | [x] => x
  | x :: y :: rest => x ++ sep ++ joinSep sep (y :: rest)

/-- `re.search(r'(\d+)', stem)` followed by `int(...)`: value of the
leftmost maximal digit run. -/
def firstNumber (s : List Char) : Option Nat :=
  (searchFrom (fun t => let d := runLen isDigitCh t; if 1 ≤ d then some d else none) s).map
    (fun id_ => digitsVal ((s.drop id_.1).take id_.2))

def minNat : Nat → List Nat → Nat
  | m, [] => m
  | m, x :: xs => minNat (if x < m then x else m) xs

def maxNat : Nat → List Nat → Nat
  | m, [] => m
  | m, x :: xs => maxNat (if m < x then x else m) xs

/-- `DirectoryAnalyzer._detect_naming_pattern`.  `len(dates) > n * 0.5`
is exact for integers, i.e. `2 * len(dates) > n`. -/
def detectNamingPattern (files : List String) : Option String :=
  let numbers := files.filterMap (fun f => firstNumber f.data)
  let isSeq : Bool :=
    !numbers.isEmpty && numbers.length == files.length &&
      (match numbers with
       | [] => false
       | n :: ns =>
         let lo := minNat n ns
         let hi := maxNat n ns
         sortLe Nat.ble numbers == List.range' lo (hi + 1 - lo))
  let dates := files.filterMap (fun f =>
    (searchFrom matchISO f.data).map (fun im => String.mk ((f.data.drop im.1).take im.2)))
  let isDate : Bool := !dates.isEmpty && files.length < 2 * dates.length
  let versions := files.filterMap (fun f => versionMatcherMatch f)
  let isVer : Bool := !versions.isEmpty && files.length < 2 * versions.length
  let pats :=
    (if isSeq then ["Sequential numbering"] else []) ++
    (if isDate then ["Date-based naming"] else []) ++
    (if isVer then ["Version-based naming"] else [])
  if pats.isEmpty then none else some (joinSep " + " pats)

def getKey (md : List (String × MetaVal)) (k : String) : Option MetaVal :=
  (md.find? (fun kv => kv.1 == k)).map (fun kv => kv.2)

def setKey (md : List (String × MetaVal)) (k : String) (v : MetaVal) : List (String × MetaVal) :=
  if md.any (fun kv => kv.1 == k) then md.map (fun kv => if kv.1 == k then (k, v) else kv)
  else md ++ [(k, v)]

/-- `set.add` on the insertion-ordered model of a Python set. -/
def insertDedup (l : List String) (x : String) : List String :=
  if l.contains x then l else l ++ [x]

/-- The text of the `AttributeError` raised by `.add` on a `str` value
(Python renders the type and attribute names in quotes). -/
def attrErrMsg : String := "str object has no attribute add"

mutual

/-- `DirectoryAnalyzer._analyze_recursive`.  Returns the group and the
`(path, group)` pairs stored into `self.groups`, in insertion order.  The
only exception source in this pure model is `metadata['projects'].add(...)`
reaching a `str` value; the surrounding `try` turns it into an `error`
metadata entry and skips the `self.groups[path] = group` registration. -/
def analyzeRec : FSTree → Nat → DirGroup × List (String × DirGroup)
  | .node path files ds, level =>
    let names := files
    let pfx : Option String :=
      if files.isEmpty then none
      else
        match findCommonPfx names with
        | some p => if p ≠ "" ∧ p.length > 3 then some p else none
        | none => none
    let codes := if files.isEmpty then [] else collectCodes names
    let pc0 : Option String := if codes.length == 1 then codes.head? else none
    let md0 : List (String × MetaVal) :=
      if codes.length > 1 then [("projects", .str (joinSep ", " (sortLe strLeB codes)))]
      else []
    let patt : Option String := if files.isEmpty then none else detectNamingPattern names
    let res := analyzeForest ds (level + 1) pc0 md0
    let mdF := if res.2.2.2.2 then setKey res.2.2.2.1 "error" (.str attrErrMsg) else res.2.2.2.1
    let group := DirGroup.mk path level patt res.2.2.1 pfx files.length res.1 names mdF
    (group, if res.2.2.2.2 then res.2.1 else res.2.1 ++ [(path, group)])

/-- The `for subdir in dirs` loop: analyze the subdirectory, append its
group, then reconcile its project code into the parent's state.  Returns
(appended subgroups, registrations, project_code, metadata, error flag);
on error the remaining subdirectories are not visited. -/
def analyzeForest : FSForest → Nat → Option String → List (String × MetaVal) →
    List DirGroup × List (String × DirGroup) × Option String ×
      List (String × MetaVal) × Bool
  | .nil, _, pc, md => ([], [], pc, md, false)
  | .cons t ts, level, pc, md =>
    let gr := analyzeRec t level
    match gr.1.project_code with
    | none =>
      let rest := analyzeForest ts level pc md
      (gr.1 :: rest.1, gr.2 ++ rest.2.1, rest.2.2)
    | some c =>
      match pc with
      | none =>
        let rest := analyzeForest ts level (some c) md
        (gr.1 :: rest.1, gr.2 ++ rest.2.1, rest.2.2)
      | some pcv =>
        if pcv = c then
          let rest := analyzeForest ts level (some pcv) md
          (gr.1 :: rest.1, gr.2 ++ rest.2.1, rest.2.2)
        else
          match getKey md "projects" with
          | none =>
            let rest := analyzeForest ts level none (setKey md "projects" (.strSet [c]))
            (gr.1 :: rest.1, gr.2 ++ rest.2.1, rest.2.2)
          | some (.strSet s) =>
            let rest := analyzeForest ts level none
              (setKey md "projects" (.strSet (insertDedup s c)))
            (gr.1 :: rest.1, gr.2 ++ rest.2.1, rest.2.2)
          | some (.str _) =>
            -- AttributeError: the assignment `group.project_code = None`
            -- already happened; metadata is left with its `str` value
            ([gr.1], gr.2, none, md, true)

end

/-- `DirectoryAnalyzer.analyze_directory`: clears `self.groups` and
analyzes from level 0. -/
def analyzeDirectory (t : FSTree) : DirGroup × List (String × DirGroup) :=
  analyzeRec t 0

/-- A directory whose direct files carry two project codes and whose two
subdirectories carry two further distinct codes. -/
def multiProjectTree : FSTree :=
  .node "R" ["ABC-1234_x", "DEF-5678_y"]
    (.cons (.node "R/s1" ["GHI-1111_a"] .nil)
      (.cons (.node "R/s2" ["JKL-2222_b"] .nil) .nil))

/-- C10: in a directory whose direct files carry two distinct project codes
(stored as a comma-joined `str` under `projects`) and whose subdirectories
report two distinct codes, parent reconciliation attempts `set.add` on that
string; the resulting `AttributeError` becomes an `error` metadata entry,
the `projects` entry stays the unreconciled string, and the directory is
not registered in `self.groups` (only its subdirectories are). -/
theorem multi_project_reconciliation_error :
    getKey (analyzeDirectory multiProjectTree).1.metadata "error" =
        some (.str attrErrMsg) ∧
    getKey (analyzeDirectory multiProjectTree).1.metadata "projects" =
        some (.str "ABC-1234, DEF-5678") ∧
    (analyzeDirectory multiProjectTree).1.project_code = none ∧
    ((analyzeDirectory multiProjectTree).2.map Prod.fst) = ["R/s1", "R/s2"] := by
  refine ⟨by decide, by decide, by decide, by decide⟩

/-! ## `metadata.py`: `FilePattern`, `PatternAnalyzer`, `FileTag` and
`MetadataService` -/

/-- `FilePattern`: the `examples` tuple is a list here, and the Python
field `matches` is `matchCount` (`matches` is reserved in Lean). -/
structure FilePattern where
  pattern : String
  description : String
  matchCount : Nat
  examples : List String
deriving DecidableEq

def lowerChars (s : String) : List Char := s.data.map Char.toLower

def lowerStr (s : String) : String := String.mk (lowerChars s)

def containsSub (needle hay : List Char) : Bool := (indexOfSub needle hay).isSome

/-- `re.search(r"v\d+", s, IGNORECASE)` succeeds iff some `v`/`V` is
immediately followed by a digit. -/
def hasVDigit : List Char → Bool
  | a :: b :: rest => (a.toLower = 'v' && isDigitCh b) || hasVDigit (b :: rest)
  | _ => false

def isWordDashCh (c : Char) : Bool := isWordCh c || c = '-'

/-- `re.search(r"[\w-]+_\d+", s)` succeeds iff some `[\w-]` character is
followed by `_` and then a digit (the triple is the tail of any match, and
any such triple yields a match). -/
def hasSeqTriple : List Char → Bool
  | a :: b :: c :: rest =>
    (isWordDashCh a && b = '_' && isDigitCh c) || hasSeqTriple (b :: c :: rest)
  | _ => false

def anyNeedle (needles : List String) (hay : List Char) : Bool :=
  needles.any (fun n => containsSub n.data hay)

/-- `FilePattern.matches_file`: `re.search(self.pattern, file_name,
re.IGNORECASE)` for each of the eight `COMMON_PATTERNS` regexes; literal
alternations become case-insensitive substring tests. -/
def matchesFile (pat : String) (fileName : String) : Bool :=
  let s := lowerChars fileName
  if pat = "\\d{4}-\\d{2}-\\d{2}" then (searchFrom matchISO s).isSome
  else if pat = "v\\d+" then hasVDigit s
  else if pat = "[\\w-]+_\\d+" then hasSeqTriple s
  else if pat = "backup|bak|old|new|final|draft" then
    anyNeedle ["backup", "bak", "old", "new", "final", "draft"] s
  else if pat = "temp|tmp|cache" then anyNeedle ["temp", "tmp", "cache"] s
  else if pat = "test|demo|sample|example" then
    anyNeedle ["test", "demo", "sample", "example"] s
  else if pat = "data|export|import|report" then
    anyNeedle ["data", "export", "import", "report"] s
  else if pat = "config|settings|preferences" then
    anyNeedle ["config", "settings", "preferences"] s
  else false

/-- `PatternAnalyzer.COMMON_PATTERNS` (each starts with `matches = 0` and
no examples); `self.patterns` keeps them keyed by pattern string in this
insertion order. -/
def COMMON_PATTERNS : List FilePattern :=
  [⟨"\\d{4}-\\d{2}-\\d{2}", "Date pattern (YYYY-MM-DD)", 0, []⟩,
   ⟨"v\\d+", "Version number", 0, []⟩,
   ⟨"[\\w-]+_\\d+", "Sequence number", 0, []⟩,
   ⟨"backup|bak|old|new|final|draft", "Version indicator", 0, []⟩,
   ⟨"temp|tmp|cache", "Temporary file", 0, []⟩,
   ⟨"test|demo|sample|example", "Test/Demo file", 0, []⟩,
   ⟨"data|export|import|report", "Data file", 0, []⟩,
   ⟨"config|settings|preferences", "Configuration file", 0, []⟩]

/-- One `PatternAnalyzer.analyze_file` call: `file_name` is the lower-cased
file name; every matching pattern is replaced in the dictionary by a copy
with `matches + 1` and `examples[:4] + [file_name]`. -/
def analyzeFilePatterns (ps : List FilePattern) (fileName : String) : List FilePattern :=
  let fn := lowerStr fileName
  ps.map (fun p =>
    if matchesFile p.pattern fn then
      { p with matchCount := p.matchCount + 1, examples := p.examples.take 4 ++ [fn] }
    else p)

/-- The analyzer state after `analyze_file` on each name in turn, starting
from a fresh `PatternAnalyzer()`. -/
def runAnalyzer (names : List String) : List FilePattern :=
  names.foldl analyzeFilePatterns COMMON_PATTERNS

lemma analyzeFilePatterns_examples_le (ps : List FilePattern) (n : String)
    (h : ∀ p ∈ ps, p.examples.length ≤ 5) :
    ∀ p ∈ analyzeFilePatterns ps n, p.examples.length ≤ 5 := by
  intro p hp
  simp only [analyzeFilePatterns, List.mem_map] at hp
  obtain ⟨q, hq, rfl⟩ := hp
  split
  · simp only [List.length_append, List.length_take, List.length_cons, List.length_nil]
    omega
  · exact h q hq

lemma foldl_analyze_examples_le (names : List String) :
    ∀ ps : List FilePattern, (∀ p ∈ ps, p.examples.length ≤ 5) →
      ∀ p ∈ names.foldl analyzeFilePatterns ps, p.examples.length ≤ 5 := by
  induction names with
  | nil => intro ps h; simpa using h
  | cons n ns ih =>
    intro ps h
    simp only [List.foldl_cons]
    exact ih _ (analyzeFilePatterns_examples_le ps n h)

lemma foldl_analyze_counts (names : List String) :
    ∀ ps : List FilePattern,
      (names.foldl analyzeFilePatterns ps).map (fun p => (p.pattern, p.matchCount)) =
        ps.map (fun p => (p.pattern,
          p.matchCount + (names.filter (fun n => matchesFile p.pattern (lowerStr n))).length)) := by
  induction names with
  | nil => intro ps; simp
  | cons n ns ih =>
    intro ps
    simp only [List.foldl_cons]
    rw [ih]
    simp only [analyzeFilePatterns, List.map_map]
    refine congrArg (fun f => ps.map f) (funext fun p => ?_)
    simp only [Function.comp]
    by_cases hm : matchesFile p.pattern (lowerStr n)
    · simp only [hm, if_pos, List.filter_cons, if_true]
      simp only [List.length_cons]
      exact congrArg (Prod.mk p.pattern) (by omega)
    · simp [hm, List.filter_cons]

/-- Counterexample for C8: after five `analyze_file` calls on matching
files, the `temp|tmp|cache` pattern's example list holds 5 entries, not at
most 4 — `examples[:4] + [file_name]` caps the list at five, not four. -/
theorem analyzer_examples_exceed_four :
    ∃ p ∈ runAnalyzer (List.replicate 5 "temp.txt"), 4 < p.examples.length := by
  decide

/-- C8 (amended): over any sequence of `analyze_file` calls on one
analyzer, each pattern's stored example list never holds more than five
examples (the first four kept plus the current match), while its match
counter counts every file that matched it. -/
theorem analyzer_examples_bound_and_match_counts (names : List String) :
    (∀ p ∈ runAnalyzer names, p.examples.length ≤ 5) ∧
    (runAnalyzer names).map (fun p => (p.pattern, p.matchCount)) =
      COMMON_PATTERNS.map (fun p => (p.pattern,
        (names.filter (fun n => matchesFile p.pattern (lowerStr n))).length)) := by
  constructor
  · exact foldl_analyze_examples_le names COMMON_PATTERNS (by decide)
  · rw [runAnalyzer, foldl_analyze_counts]
    simp [COMMON_PATTERNS]

/-! ## `FileTag` and `MetadataService.remove_tag` -/

/-- `FileTag`; `created` is an opaque `datetime.now()` timestamp.  Python
equality and hashing use only `(name, source)`, which governs set
de-duplication; the Lean lists carry the full records. -/
structure FileTag where
  name : String
  source : String
  confidence : ℚ
  created : Nat
deriving DecidableEq

/-- `FileMetadata`; `last_analyzed` is an opaque timestamp. -/
structure FileMetadata where
  file_path : String
  tags : List FileTag
  patterns : List FilePattern
  category : Option String
  subcategory : Option String
  parsed_name : Option ParsedName
  directory_group : Option DirGroup
  notes : String
  last_analyzed : Option Nat

/-- `self.metadata.get(file_path)` on the insertion-ordered dict. -/
def lookupStore : List (String × FileMetadata) → String → Option FileMetadata
  | [], _ => none
  | (k, v) :: rest, key => if k = key then some v else lookupStore rest key

/-- `MetadataService.remove_tag`: when the file has stored metadata, its
tag set is rebuilt keeping only tags whose name differs from `tagName`,
regardless of source; other entries (and a missing key) are untouched. -/
def removeTagStore : List (String × FileMetadata) → String → String →
    List (String × FileMetadata)
  | [], _, _ => []
  | (k, v) :: rest, path, tagName =>
    if k = path then
      (k, { v with tags := v.tags.filter (fun t => t.name != tagName) }) ::
        removeTagStore rest path tagName
    else (k, v) :: removeTagStore rest path tagName

/-- C7: for a file with stored metadata, `remove_tag` leaves exactly the
tags whose name differs from the given name — every tag with that name is
gone whatever its source, and every other tag survives unchanged. -/
theorem removeTag_removes_by_name (store : List (String × FileMetadata))
    (path tagName : String) (md : FileMetadata)
    (h : lookupStore store path = some md) :
    lookupStore (removeTagStore store path tagName) path =
      some { md with tags := md.tags.filter (fun t => t.name != tagName) } ∧
    ∀ t : FileTag, (t ∈ md.tags.filter (fun t => t.name != tagName)) ↔
      (t ∈ md.tags ∧ t.name ≠ tagName) := by
  constructor
  · induction store with
    | nil => simp [lookupStore] at h
    | cons kv rest ih =>
      obtain ⟨k, v⟩ := kv
      by_cases hk : k = path
      · subst hk
        simp only [lookupStore, if_pos] at h
        simp only [removeTagStore, if_pos, lookupStore]
        cases h
        rfl
      · simp only [lookupStore, if_neg hk] at h
        simp only [removeTagStore, if_neg hk, lookupStore]
        exact ih h
  · intro t
    simp [List.mem_filter, bne_iff_ne]

def demoTagsStore : List (String × FileMetadata) :=
  [("a.txt",
    { file_path := "a.txt"
      tags := [⟨"foo", "auto", 1, 0⟩, ⟨"foo", "user", 1, 0⟩, ⟨"bar", "auto", 1, 0⟩]
      patterns := []
      category := none
      subcategory := none
      parsed_name := none
      directory_group := none
      notes := ""
      last_analyzed := none })]

def demoTagsMd : FileMetadata :=
  { file_path := "a.txt"
    tags := [⟨"foo", "auto", 1, 0⟩, ⟨"foo", "user", 1, 0⟩, ⟨"bar", "auto", 1, 0⟩]
    patterns := []
    category := none
    subcategory := none
    parsed_name := none
    directory_group := none
    notes := ""
    last_analyzed := none }

/-- Witness for C7: a file carrying an auto `foo`, a user `foo` and an
auto `bar`; removing `foo` keeps exactly the `bar` tag. -/
theorem removeTag_removes_by_name_witness :
    lookupStore demoTagsStore "a.txt" = some demoTagsMd ∧
    (lookupStore (removeTagStore demoTagsStore "a.txt" "foo") "a.txt" =
      some { demoTagsMd with
               tags := demoTagsMd.tags.filter (fun t => t.name != "foo") } ∧
     ∀ t : FileTag, (t ∈ demoTagsMd.tags.filter (fun t => t.name != "foo")) ↔
       (t ∈ demoTagsMd.tags ∧ t.name ≠ "foo")) :=
  ⟨rfl, removeTag_removes_by_name demoTagsStore "a.txt" "foo" demoTagsMd rfl⟩

/-! ## `core/scanner.py`: `FileScanner.scan`

`scan` first materializes the candidate list (`file_paths =
list(self._scan_files())`) and sets `total_files = len(file_paths)`, then
processes each candidate.  A candidate is modelled by the data the loop
reads from the filesystem: the file name, its `Path.suffix`, the relative
path parts of its parent directory, and the outcome of `Path.stat()`
(which may raise, e.g. `PermissionError`; the handler prints a warning and
skips the entry).  Paths are modelled by their parts relative to the scan
root; the absolute root prefix is constant and dropped. -/

structure StatInfo where
  size : Nat
  ctime : Nat
  mtime : Nat
deriving DecidableEq

structure Entry where
  name : String
  suffix : String
  dirParts : List String
  statResult : Except String StatInfo

structure FileInfo where
  name : String
  relParts : List String
  dirParts : List String
  extension : Option String
  size_bytes : Nat
  created_date : Nat
  modified_date : Nat
  is_hidden : Bool
deriving DecidableEq

structure DirectoryInfo where
  relParts : List String
  depth : Nat
  parentParts : Option (List String)
deriving DecidableEq

structure ScanResult where
  root_path : String
  total_files : Nat
  total_size : Nat
  files : List FileInfo
  directories : List DirectoryInfo
  extension_stats : List (String × Nat × Nat)
deriving DecidableEq

def isHiddenName (name : String) : Bool :=
  match name.data with
  | '.' :: _ => true
  | _ => false

/-- The `FileInfo(...)` constructor call in the scan loop.  `extension` is
`file_path.suffix.lower() if file_path.suffix else None`. -/
def mkFileInfo (e : Entry) (st : StatInfo) : FileInfo :=
  { name := e.name
    relParts := e.dirParts ++ [e.name]
    dirParts := e.dirParts
    extension := if e.suffix ≠ "" then some (lowerStr e.suffix) else none
    size_bytes := st.size
    created_date := st.ctime
    modified_date := st.mtime
    is_hidden := isHiddenName e.name }

/-- `extension_stats` dict update: bump `count`/`size` at the key (first
occurrence — dict keys are unique), else append a fresh entry. -/
def bumpExt : List (String × Nat × Nat) → String → Nat → List (String × Nat × Nat)
  | [], ext, sz => [(ext, 1, sz)]
  | (k, c, s) :: rest, ext, sz =>
    if k = ext then (k, c + 1, s + sz) :: rest
    else (k, c, s) :: bumpExt rest ext sz

/-- The `for part in ... .parts` loop materializing unseen ancestor
directories, in order, deduplicated by path. -/
def addDirs : List (List String) → List DirectoryInfo → List String → List String →
    List (List String) × List DirectoryInfo
  | seen, dirs, _, [] => (seen, dirs)
  | seen, dirs, acc, p :: ps =>
    let cur := acc ++ [p]
    if seen.contains cur then addDirs seen dirs cur ps
    else
      addDirs (seen ++ [cur])
        (dirs ++ [{ relParts := cur, depth := cur.length, parentParts := some cur.dropLast }])
        cur ps

structure ScanState where
  files : List FileInfo
  directories : List DirectoryInfo
  extStats : List (String × Nat × Nat)
  totalSize : Nat
  seenDirs : List (List String)
deriving DecidableEq

/-- One iteration of the `for file_path in file_paths` loop: a failing
`stat()` skips the entry with a warning; otherwise the file record,
extension statistics, running total size and unseen ancestor directories
are appended. -/
def processEntry (st : ScanState) (e : Entry) : ScanState :=
  match e.statResult with
  | .error _ => st
  | .ok info =>
    let fi := mkFileInfo e info
    let ext := fi.extension.getD "(no extension)"
    let sd := addDirs st.seenDirs st.directories [] e.dirParts
    { files := st.files ++ [fi]
      directories := sd.2
      extStats := bumpExt st.extStats ext info.size
      totalSize := st.totalSize + info.size
      seenDirs := sd.1 }

def initScanState : ScanState := ⟨[], [], [], 0, []⟩

def runScan (entries : List Entry) : ScanState :=
  entries.foldl processEntry initScanState

/-- `scan` completing normally: `total_files` is the number of candidate
paths counted before the processing loop. -/
def scanCompleted (root : String) (entries : List Entry) : ScanResult :=
  let st := runScan entries
  { root_path := root
    total_files := entries.length
    total_size := st.totalSize
    files := st.files
    directories := st.directories
    extension_stats := st.extStats }

/-- `scan` hit by `KeyboardInterrupt` after `k` candidates were visited:
the handler returns the accumulated state with `total_files = len(files)`
instead of raising. -/
def scanInterrupted (root : String) (entries : List Entry) (k : Nat) : ScanResult :=
  let st := runScan (entries.take k)
  { root_path := root
    total_files := st.files.length
    total_size := st.totalSize
    files := st.files
    directories := st.directories
    extension_stats := st.extStats }

def isOkEntry (e : Entry) : Bool :=
  match e.statResult with
  | .ok _ => true
  | .error _ => false

def extSizeSum (stats : List (String × Nat × Nat)) : Nat :=
  (stats.map (fun kv => kv.2.2)).sum

lemma bumpExt_sum (stats : List (String × Nat × Nat)) (ext : String) (sz : Nat) :
    extSizeSum (bumpExt stats ext sz) = extSizeSum stats + sz := by
  induction stats with
  | nil => simp [bumpExt, extSizeSum]
  | cons kv rest ih =>
    obtain ⟨k, c, s⟩ := kv
    by_cases hk : k = ext
    · simp [bumpExt, hk, extSizeSum]
      omega
    · simp [bumpExt, hk, extSizeSum] at ih ⊢
      omega

lemma foldl_process_size_inv (entries : List Entry) :
    ∀ st : ScanState, st.totalSize = extSizeSum st.extStats →
      (entries.foldl processEntry st).totalSize =
        extSizeSum (entries.foldl processEntry st).extStats := by
  induction entries with
  | nil => intro st h; simpa using h
  | cons e es ih =>
    intro st h
    simp only [List.foldl_cons]
    apply ih
    cases hs : e.statResult with
    | error msg => simpa [processEntry, hs] using h
    | ok info => simp [processEntry, hs, bumpExt_sum, h]

lemma foldl_process_files_length (entries : List Entry) :
    ∀ st : ScanState,
      (entries.foldl processEntry st).files.length =
        st.files.length + (entries.filter isOkEntry).length := by
  induction entries with
  | nil => intro st; simp
  | cons e es ih =>
    intro st
    simp only [List.foldl_cons]
    rw [ih]
    cases hs : e.statResult with
    | error msg => simp [processEntry, hs, List.filter_cons, isOkEntry]
    | ok info =>
      simp [processEntry, hs, List.filter_cons, isOkEntry]
      omega

/-- Counterexample for C1: one candidate whose `stat()` raises gives
`total_files = 1` while `files` is empty, so `total_files ≠ len(files)` on
runs with per-entry processing errors. -/
theorem scan_total_files_counterexample :
    (scanCompleted "/r" [⟨"x.txt", ".txt", [], .error "PermissionError"⟩]).total_files = 1 ∧
    (scanCompleted "/r" [⟨"x.txt", ".txt", [], .error "PermissionError"⟩]).files.length = 0 ∧
    (scanCompleted "/r" [⟨"x.txt", ".txt", [], .error "PermissionError"⟩]).total_files ≠
      (scanCompleted "/r" [⟨"x.txt", ".txt", [], .error "PermissionError"⟩]).files.length := by
  exact ⟨rfl, rfl, by decide⟩

/-- C1 (amended): `total_size` always equals the sum of the extension
statistics' byte totals (also on interrupted runs, where `total_files =
len(files)` holds as well), but on completed runs `total_files` counts the
candidate paths, which equals `len(files)` only when every candidate
processes without a per-entry error. -/
theorem scan_totals_spec (root : String) (entries : List Entry) :
    (scanCompleted root entries).total_size =
      extSizeSum (scanCompleted root entries).extension_stats ∧
    (scanCompleted root entries).total_files = entries.length ∧
    ((∀ e ∈ entries, isOkEntry e = true) →
      (scanCompleted root entries).total_files =
        (scanCompleted root entries).files.length) ∧
    (∀ k, (scanInterrupted root entries k).total_size =
        extSizeSum (scanInterrupted root entries k).extension_stats ∧
      (scanInterrupted root entries k).total_files =
        (scanInterrupted root entries k).files.length) := by
  refine ⟨foldl_process_size_inv entries initScanState rfl, rfl, ?_, ?_⟩
  · intro hok
    show entries.length = (runScan entries).files.length
    rw [runScan, foldl_process_files_length entries initScanState,
      List.filter_eq_self.mpr hok]
    simp [initScanState]
  · intro k
    exact ⟨foldl_process_size_inv (entries.take k) initScanState rfl, rfl⟩

/-- Witness for C1's amended claim: an error-free run where the candidate
count equals the number of file records. -/
theorem scan_totals_spec_witness :
    (∀ e ∈ [(⟨"a.txt", ".txt", [], .ok ⟨10, 0, 0⟩⟩ : Entry),
            ⟨"b.txt", ".txt", [], .ok ⟨20, 0, 0⟩⟩], isOkEntry e = true) ∧
    (scanCompleted "/r" [⟨"a.txt", ".txt", [], .ok ⟨10, 0, 0⟩⟩,
        ⟨"b.txt", ".txt", [], .ok ⟨20, 0, 0⟩⟩]).total_files =
      (scanCompleted "/r" [⟨"a.txt", ".txt", [], .ok ⟨10, 0, 0⟩⟩,
        ⟨"b.txt", ".txt", [], .ok ⟨20, 0, 0⟩⟩]).files.length :=
  ⟨by decide, (scan_totals_spec "/r" _).2.2.1 (by decide)⟩

/-- C4: interrupting after `k` of the candidates were processed (all of
them successfully) returns, rather than raises, a `ScanResult` whose
`total_files` is `k` — the completed entries — with the records
accumulated so far. -/
theorem scan_interrupted_spec (root : String) (entries : List Entry) (k : Nat)
    (hk : k ≤ entries.length)
    (hok : ∀ e ∈ entries.take k, isOkEntry e = true) :
    (scanInterrupted root entries k).total_files = k ∧
    (scanInterrupted root entries k).files.length = k ∧
    (scanInterrupted root entries k).files = (runScan (entries.take k)).files ∧
    (scanInterrupted root entries k).directories =
      (runScan (entries.take k)).directories ∧
    (scanInterrupted root entries k).extension_stats =
      (runScan (entries.take k)).extStats := by
  have hlen : (runScan (entries.take k)).files.length = k := by
    rw [runScan, foldl_process_files_length _ initScanState,
      List.filter_eq_self.mpr hok]
    simp [initScanState, List.length_take]
    omega
  exact ⟨hlen, hlen, rfl, rfl, rfl⟩

/-- Witness for C4: three candidates, interrupted after two. -/
theorem scan_interrupted_spec_witness :
    (2 ≤ ([⟨"a.txt", ".txt", [], .ok ⟨10, 0, 0⟩⟩,
           ⟨"b.txt", ".txt", [], .ok ⟨20, 0, 0⟩⟩,
           ⟨"c.txt", ".txt", [], .ok ⟨30, 0, 0⟩⟩] : List Entry).length) ∧
    (scanInterrupted "/r" [⟨"a.txt", ".txt", [], .ok ⟨10, 0, 0⟩⟩,
        ⟨"b.txt", ".txt", [], .ok ⟨20, 0, 0⟩⟩,
        ⟨"c.txt", ".txt", [], .ok ⟨30, 0, 0⟩⟩] 2).total_files = 2 :=
  ⟨by decide,
   (scan_interrupted_spec "/r" _ 2 (by decide) (by decide)).1⟩

/-! ## `database/catalog.py`: `CatalogManager.create_catalog` (with
`DatabaseManager.execute_transaction` from `database/base.py`)

The SQLite tables become record lists.  `execute_transaction` is
all-or-nothing: an exception mid-batch triggers `conn.rollback()`, leaving
the table unchanged, and re-raises; a clean run commits every row.  The
fault model is an environment `env : Nat → Bool` telling, for the `k`-th
`execute_transaction` call of one `create_catalog` run, whether some query
in it raises.  `execute_insert` (the single parent-row insert) commits on
its own connection and is not part of any batch. -/

structure CatalogRow where
  id : Nat
  root_path : String
  total_files : Nat
  total_size_bytes : Nat
  status : String
deriving DecidableEq

structure FileRow where
  catalog_id : Nat
  file_name : String
  directory_path : List String
  relative_path : List String
  extension : Option String
  size_bytes : Nat
  created_date : Nat
  modified_date : Nat
  is_hidden : Bool
deriving DecidableEq

structure DirRow where
  catalog_id : Nat
  directory_path : List String
  relative_path : List String
  depth : Nat
  parent_path : Option (List String)
deriving DecidableEq

structure CatalogDB where
  catalogs : List CatalogRow
  files : List FileRow
  dirs : List DirRow
  nextId : Nat
deriving DecidableEq

/-- The files `INSERT` parameter tuple for one `FileInfo`. -/
def fileToRow (cid : Nat) (fi : FileInfo) : FileRow :=
  { catalog_id := cid
    file_name := fi.name
    directory_path := fi.dirParts
    relative_path := fi.relParts
    extension := fi.extension
    size_bytes := fi.size_bytes
    created_date := fi.created_date
    modified_date := fi.modified_date
    is_hidden := fi.is_hidden }

/-- The directories `INSERT` parameter tuple for one `DirectoryInfo`. -/
def dirToRow (cid : Nat) (di : DirectoryInfo) : DirRow :=
  { catalog_id := cid
    directory_path := di.relParts
    relative_path := di.relParts
    depth := di.depth
    parent_path := di.parentParts }

/-- `range(0, len(file_queries), 1000)` slicing; the fuel (list length)
bounds the iteration count. -/
def chunksF {α : Type} : Nat → List α → List (List α)
  | 0, _ => []
  | _, [] => []
  | fuel + 1, l => l.take 1000 :: chunksF fuel (l.drop 1000)

def chunks1000 {α : Type} (l : List α) : List (List α) := chunksF l.length l

/-- The per-batch loop over file batches: the `i`-th transaction either
raises (rolled back, exception propagates, later batches never run) or
commits its rows.  Returns the files table, the outcome, and the sizes of
the transactions that executed. -/
def insertBatches (env : Nat → Bool) : Nat → List FileRow → List (List FileRow) →
    List FileRow × Except Unit Unit × List Nat
  | _, tbl, [] => (tbl, .ok (), [])
  | i, tbl, b :: bs =>
    if env i then (tbl, .error (), [b.length])
    else
      let rest := insertBatches env (i + 1) (tbl ++ b) bs
      (rest.1, rest.2.1, b.length :: rest.2.2)

/-- `CatalogManager.create_catalog`: insert the parent catalog row
(status `'active'`, no archiving of prior catalogs), then the directory
rows in one transaction (when any), then the file rows in batches of 1000.
Returns the store, the result (`catalog_id` or the propagated exception)
and the executed file-batch sizes. -/
def createCatalog (env : Nat → Bool) (db : CatalogDB) (sr : ScanResult) :
    CatalogDB × Except Unit Nat × List Nat :=
  let cid := db.nextId
  let db1 : CatalogDB :=
    { db with
      catalogs := db.catalogs ++
        [{ id := cid, root_path := sr.root_path, total_files := sr.total_files,
           total_size_bytes := sr.total_size, status := "active" }]
      nextId := cid + 1 }
  let dirRows := sr.directories.map (dirToRow cid)
  let fileRows := sr.files.map (fileToRow cid)
  if dirRows.isEmpty then
    let fb := insertBatches env 0 db1.files (chunks1000 fileRows)
    ({ db1 with files := fb.1 },
     (match fb.2.1 with | .ok _ => .ok cid | .error e => .error e), fb.2.2)
  else
    if env 0 then (db1, .error (), [])
    else
      let db2 := { db1 with dirs := db1.dirs ++ dirRows }
      let fb := insertBatches env 1 db2.files (chunks1000 fileRows)
      ({ db2 with files := fb.1 },
       (match fb.2.1 with | .ok _ => .ok cid | .error e => .error e), fb.2.2)

/-- The `files WHERE catalog_id = ?` query of `get_file_info`
(`ORDER BY relative_path` is presentational and omitted). -/
def catalogFiles (db : CatalogDB) (cid : Nat) : List FileRow :=
  db.files.filter (fun r => r.catalog_id == cid)

lemma chunksF_nil {α : Type} (fuel : Nat) : chunksF fuel ([] : List α) = [] := by
  cases fuel <;> rfl

lemma chunksF_eq {α : Type} (fuel : Nat) (l : List α) (hf : fuel ≠ 0) (hl : l ≠ []) :
    chunksF fuel l = l.take 1000 :: chunksF (fuel - 1) (l.drop 1000) := by
  cases fuel with
  | zero => exact absurd rfl hf
  | succ n =>
    cases l with
    | nil => exact absurd rfl hl
    | cons c cs => rfl

lemma chunks_of_length_2500 {α : Type} (l : List α) (h : l.length = 2500) :
    chunks1000 l = [l.take 1000, (l.drop 1000).take 1000, (l.drop 1000).drop 1000] := by
  have h1 : l ≠ [] := by
    intro hn; rw [hn] at h; simp at h
  have hd1 : (l.drop 1000).length = 1500 := by
    rw [List.length_drop, h]
  have hd2 : ((l.drop 1000).drop 1000).length = 500 := by
    rw [List.length_drop, hd1]
  have h2 : l.drop 1000 ≠ [] := by
    intro hn; rw [hn] at hd1; simp at hd1
  have h3 : (l.drop 1000).drop 1000 ≠ [] := by
    intro hn; rw [hn] at hd2; simp at hd2
  have hd3 : ((l.drop 1000).drop 1000).drop 1000 = [] := by
    apply List.eq_nil_of_length_eq_zero
    rw [List.length_drop, hd2]
  have hlast : List.take 1000 ((l.drop 1000).drop 1000) = (l.drop 1000).drop 1000 :=
    List.take_of_length_le (by rw [hd2]; norm_num)
  rw [chunks1000, h,
    chunksF_eq 2500 l (by norm_num) h1,
    chunksF_eq (2500 - 1) _ (by norm_num) h2,
    chunksF_eq (2500 - 1 - 1) _ (by norm_num) h3,
    hd3, chunksF_nil, hlast]

lemma insertBatches_three (env : Nat → Bool) (off : Nat) (tbl : List FileRow)
    (b1 b2 b3 : List FileRow)
    (e0 : env off = false) (e1 : env (off + 1) = false) (e2 : env (off + 2) = true) :
    insertBatches env off tbl [b1, b2, b3] =
      (tbl ++ b1 ++ b2, .error (), [b1.length, b2.length, b3.length]) := by
  simp [insertBatches, e0, e1, e2]

lemma insertBatches_ok (env : Nat → Bool) (henv : ∀ i, env i = false) :
    ∀ (bs : List (List FileRow)) (off : Nat) (tbl : List FileRow),
      insertBatches env off tbl bs = (tbl ++ bs.flatten, .ok (), bs.map List.length) := by
  intro bs
  induction bs with
  | nil => intro off tbl; simp [insertBatches]
  | cons b rest ih =>
    intro off tbl
    simp [insertBatches, henv, ih, List.append_assoc]

lemma filter_fileToRow (cid : Nat) (fis : List FileInfo) :
    (fis.map (fileToRow cid)).filter (fun r => r.catalog_id == cid) =
      fis.map (fileToRow cid) := by
  apply List.filter_eq_self.mpr
  intro r hr
  obtain ⟨fi, _, rfl⟩ := List.mem_map.mp hr
  simp [fileToRow]

/-- C2: on a 2,500-file scan result, `create_catalog` runs exactly three
file-insert transactions of sizes 1000/1000/500; a failure in the third
rolls back that batch only — the 2,000 file rows committed by the first
two batches stay present and queryable — and with no failures all three
batches commit. -/
theorem create_catalog_batch_spec (env : Nat → Bool) (db : CatalogDB) (sr : ScanResult)
    (hlen : sr.files.length = 2500)
    (h0 : env 0 = false) (h1 : env 1 = false)
    (h2 : sr.directories.isEmpty = false → env 2 = false)
    (h3 : env (if sr.directories.isEmpty then 2 else 3) = true) :
    (createCatalog env db sr).2.2 = [1000, 1000, 500] ∧
    (createCatalog env db sr).2.1 = .error () ∧
    catalogFiles (createCatalog env db sr).1 db.nextId =
      catalogFiles db db.nextId ++ (sr.files.take 2000).map (fileToRow db.nextId) ∧
    ∀ env' : Nat → Bool, (∀ i, env' i = false) →
      (createCatalog env' db sr).2.2 = [1000, 1000, 500] ∧
      (createCatalog env' db sr).2.1 = .ok db.nextId ∧
      catalogFiles (createCatalog env' db sr).1 db.nextId =
        catalogFiles db db.nextId ++ sr.files.map (fileToRow db.nextId) := by
  have hfr : (sr.files.map (fileToRow db.nextId)).length = 2500 := by
    simp [hlen]
  have hch := chunks_of_length_2500 (sr.files.map (fileToRow db.nextId)) hfr
  have hb1 : ((sr.files.map (fileToRow db.nextId)).take 1000).length = 1000 := by
    rw [List.length_take, hfr]; omega
  have hb2 : (((sr.files.map (fileToRow db.nextId)).drop 1000).take 1000).length = 1000 := by
    rw [List.length_take, List.length_drop, hfr]; omega
  have hb3 : (((sr.files.map (fileToRow db.nextId)).drop 1000).drop 1000).length = 500 := by
    rw [List.length_drop, List.length_drop, hfr]
  have hrun : createCatalog env db sr =
      ({ catalogs := db.catalogs ++
           [{ id := db.nextId, root_path := sr.root_path, total_files := sr.total_files,
              total_size_bytes := sr.total_size, status := "active" }]
         files := db.files ++ (sr.files.map (fileToRow db.nextId)).take 1000 ++
           ((sr.files.map (fileToRow db.nextId)).drop 1000).take 1000
         dirs := db.dirs ++ sr.directories.map (dirToRow db.nextId)
         nextId := db.nextId + 1 }, .error (), [1000, 1000, 500]) := by
    cases hsd : sr.directories with
    | nil =>
      have h3' : env 2 = true := by
        have h := h3; rw [hsd] at h; simpa using h
      simp only [createCatalog, hsd, List.map_nil, List.isEmpty_nil, if_true, ite_true]
      rw [hch, insertBatches_three env 0 db.files _ _ _ h0 h1 h3']
      simp [hb1, hb2, hb3, hlen]
    | cons d ds =>
      have hne : sr.directories.isEmpty = false := by rw [hsd]; rfl
      have h2' : env 2 = false := h2 hne
      have h3' : env 3 = true := by
        have h := h3; rw [hsd] at h; simpa using h
      simp only [createCatalog, hsd, List.map_cons, List.isEmpty_cons, if_false,
        Bool.false_eq_true, h0]
      rw [hch, insertBatches_three env 1 _ _ _ _ h1 h2' h3']
      simp [hb1, hb2, hb3, hlen]
  refine ⟨by rw [hrun], by rw [hrun], ?_, ?_⟩
  · rw [hrun]
    simp only [catalogFiles, List.filter_append]
    rw [← List.map_take, ← List.map_drop, ← List.map_take,
      filter_fileToRow, filter_fileToRow]
    have h2000 : (2000 : Nat) = 1000 + 1000 := by norm_num
    rw [h2000, List.take_add, List.map_append, List.append_assoc]
  · intro env' henv'
    have hrun' : createCatalog env' db sr =
        ({ catalogs := db.catalogs ++
             [{ id := db.nextId, root_path := sr.root_path, total_files := sr.total_files,
                total_size_bytes := sr.total_size, status := "active" }]
           files := db.files ++ sr.files.map (fileToRow db.nextId)
           dirs := db.dirs ++ sr.directories.map (dirToRow db.nextId)
           nextId := db.nextId + 1 }, .ok db.nextId, [1000, 1000, 500]) := by
      have hjoin : ([(sr.files.map (fileToRow db.nextId)).take 1000,
          ((sr.files.map (fileToRow db.nextId)).drop 1000).take 1000,
          ((sr.files.map (fileToRow db.nextId)).drop 1000).drop 1000] :
            List (List FileRow)).flatten = sr.files.map (fileToRow db.nextId) := by
        simp only [List.flatten_cons, List.flatten_nil, List.append_nil]
        rw [List.take_append_drop, List.take_append_drop]
      cases hsd : sr.directories with
      | nil =>
        simp only [createCatalog, hsd, List.map_nil, List.isEmpty_nil, if_true, ite_true]
        rw [hch, insertBatches_ok env' henv']
        rw [hjoin]
        simp [hb1, hb2, hb3, hlen]
      | cons d ds =>
        simp only [createCatalog, hsd, List.map_cons, List.isEmpty_cons, if_false,
          Bool.false_eq_true, henv' 0]
        rw [hch, insertBatches_ok env' henv']
        rw [hjoin]
        simp [hb1, hb2, hb3, hlen]
    refine ⟨by rw [hrun'], by rw [hrun'], ?_⟩
    rw [hrun']
    simp only [catalogFiles, List.filter_append]
    rw [filter_fileToRow]

def c2file : FileInfo := ⟨"a", ["a"], [], none, 0, 0, 0, false⟩

def c2scan : ScanResult := ⟨"/r", 2500, 0, List.replicate 2500 c2file, [], []⟩

def c2db : CatalogDB := ⟨[], [], [], 1⟩

def c2env : Nat → Bool := fun k => k == 2

/-- Witness for C2: 2,500 identical file records, no directories, and an
environment failing exactly the third transaction. -/
theorem create_catalog_batch_spec_witness :
    c2scan.files.length = 2500 ∧
    c2env 0 = false ∧ c2env 1 = false ∧
    (c2scan.directories.isEmpty = false → c2env 2 = false) ∧
    c2env (if c2scan.directories.isEmpty then 2 else 3) = true ∧
    (createCatalog c2env c2db c2scan).2.2 = [1000, 1000, 500] ∧
    (createCatalog c2env c2db c2scan).2.1 = .error () := by
  have hlen2500 : c2scan.files.length = 2500 := by
    show (List.replicate 2500 c2file).length = 2500
    rw [List.length_replicate]
  have hdir : c2scan.directories.isEmpty = false → c2env 2 = false :=
    fun hc => Bool.noConfusion hc
  have h := create_catalog_batch_spec c2env c2db c2scan hlen2500 rfl rfl hdir rfl
  exact ⟨hlen2500, rfl, rfl, hdir, rfl, h.1, h.2.1⟩

/-! ## `database/stats.py`: `StatsManager.save_scan_results` (C3) -/

structure ScanRow where
  id : Nat
  root_path : String
  total_files : Nat
  total_size_bytes : Nat
  status : String
deriving DecidableEq

structure FileTypeRow where
  scan_id : Nat
  extension : String
  count : Nat
  total_size_bytes : Nat
deriving DecidableEq

structure StatsDB where
  scan_results : List ScanRow
  file_types : List FileTypeRow
  nextId : Nat
deriving DecidableEq

/-- `StatsManager.save_scan_results`: first `UPDATE scan_results SET
status = 'archived' WHERE root_path = ?`, then insert the new row with
status `'completed'`, then the extension-statistics rows (modelled on the
success path; a failing statistics transaction propagates and is outside
this claim). -/
def saveScanResults (db : StatsDB) (sr : ScanResult) : StatsDB × Nat :=
  let archived := db.scan_results.map (fun r =>
    if r.root_path = sr.root_path then { r with status := "archived" } else r)
  let sid := db.nextId
  let ftRows := sr.extension_stats.map (fun kv =>
    ({ scan_id := sid, extension := kv.1, count := kv.2.1,
       total_size_bytes := kv.2.2 } : FileTypeRow))
  ({ scan_results := archived ++
       [{ id := sid, root_path := sr.root_path, total_files := sr.total_files,
          total_size_bytes := sr.total_size, status := "completed" }]
     file_types := db.file_types ++ ftRows
     nextId := sid + 1 }, sid)

def envOk : Nat → Bool := fun _ => false

def c3scan : ScanResult := ⟨"/r", 0, 0, [], [], []⟩

/-- Counterexample for C3: two `create_catalog` runs on the same root path
leave two `'active'` catalog rows and no `'archived'` row — the catalog
store never archives prior catalogs. -/
theorem catalog_rescan_archives_counterexample :
    ((createCatalog envOk (createCatalog envOk ⟨[], [], [], 1⟩ c3scan).1 c3scan).1.catalogs.filter
        (fun c => c.root_path == "/r" && c.status != "archived")).length = 2 ∧
    ((createCatalog envOk (createCatalog envOk ⟨[], [], [], 1⟩ c3scan).1 c3scan).1.catalogs.filter
        (fun c => c.root_path == "/r" && c.status == "archived")).length = 0 ∧
    ¬ (((createCatalog envOk (createCatalog envOk ⟨[], [], [], 1⟩ c3scan).1 c3scan).1.catalogs.filter
          (fun c => c.root_path == "/r" && c.status != "archived")).length = 1 ∧
       1 ≤ ((createCatalog envOk (createCatalog envOk ⟨[], [], [], 1⟩ c3scan).1 c3scan).1.catalogs.filter
          (fun c => c.root_path == "/r" && c.status == "archived")).length) := by
  exact ⟨by decide, by decide, by decide⟩

lemma createCatalog_catalogs (env : Nat → Bool) (db : CatalogDB) (sr : ScanResult) :
    (createCatalog env db sr).1.catalogs =
      db.catalogs ++
        [{ id := db.nextId, root_path := sr.root_path, total_files := sr.total_files,
           total_size_bytes := sr.total_size, status := "active" }] := by
  simp only [createCatalog]
  split
  · rfl
  · split
    · rfl
    · rfl

/-- After one `save_scan_results`, the non-archived rows for the saved
path are exactly the freshly inserted `'completed'` row. -/
lemma save_nonarchived (db : StatsDB) (sr : ScanResult) (p : String)
    (hp : sr.root_path = p) :
    (saveScanResults db sr).1.scan_results.filter
        (fun r => r.root_path == p && r.status != "archived") =
      [{ id := db.nextId, root_path := sr.root_path, total_files := sr.total_files,
         total_size_bytes := sr.total_size, status := "completed" }] := by
  have hnil : (db.scan_results.map (fun r =>
      if r.root_path = sr.root_path then { r with status := "archived" } else r)).filter
      (fun r => r.root_path == p && r.status != "archived") = [] := by
    apply List.filter_eq_nil_iff.mpr
    intro r hr
    obtain ⟨r0, _, rfl⟩ := List.mem_map.mp hr
    by_cases h : r0.root_path = sr.root_path
    · simp [h]
    · have hne : r0.root_path ≠ p := fun hc => h (hc.trans hp.symm)
      simp [h, hne]
  simp only [saveScanResults, List.filter_append]
  rw [hnil]
  simp [hp]

/-- The first save's scan row as the second save leaves it: archived. -/
def archivedRowOf (db : StatsDB) (sr : ScanResult) : ScanRow :=
  { id := db.nextId, root_path := sr.root_path, total_files := sr.total_files,
    total_size_bytes := sr.total_size, status := "archived" }

/-- C3 (amended): re-saving a scan of the same root path archives prior
rows in the stats store — afterwards exactly one non-archived
(`'completed'`) row and at least one `'archived'` row exist for that path —
but `create_catalog` never archives: both catalog rows for the path stay
`'active'` and no `'archived'` catalog row appears. -/
theorem rescan_archival_spec (db : StatsDB) (sr1 sr2 : ScanResult) (p : String)
    (hp1 : sr1.root_path = p) (hp2 : sr2.root_path = p) :
    (((saveScanResults (saveScanResults db sr1).1 sr2).1.scan_results.filter
        (fun r => r.root_path == p && r.status != "archived")).length = 1 ∧
     1 ≤ ((saveScanResults (saveScanResults db sr1).1 sr2).1.scan_results.filter
        (fun r => r.root_path == p && r.status == "archived")).length) ∧
    ∀ cdb : CatalogDB,
      ((createCatalog envOk (createCatalog envOk cdb sr1).1 sr2).1.catalogs.filter
          (fun c => c.root_path == p && c.status != "archived")).length =
        (cdb.catalogs.filter
          (fun c => c.root_path == p && c.status != "archived")).length + 2 ∧
      ((createCatalog envOk (createCatalog envOk cdb sr1).1 sr2).1.catalogs.filter
          (fun c => c.root_path == p && c.status == "archived")).length =
        (cdb.catalogs.filter
          (fun c => c.root_path == p && c.status == "archived")).length := by
  constructor
  · constructor
    · rw [save_nonarchived (saveScanResults db sr1).1 sr2 p hp2]
      rfl
    · apply List.length_pos.mpr
      have hmem2 : archivedRowOf db sr1 ∈
          (saveScanResults (saveScanResults db sr1).1 sr2).1.scan_results := by
        simp only [saveScanResults, List.map_append, List.map_cons, List.map_nil]
        apply List.mem_append_left
        apply List.mem_append_right
        simp [archivedRowOf, hp1, hp2]
      have hpred2 : ((archivedRowOf db sr1).root_path == p &&
          (archivedRowOf db sr1).status == "archived") = true := by
        simp [archivedRowOf, hp1]
      exact List.ne_nil_of_mem (List.mem_filter.mpr ⟨hmem2, hpred2⟩)
  · intro cdb
    rw [createCatalog_catalogs, createCatalog_catalogs]
    simp [List.filter_append, hp1, hp2]

/-- Witness for C3's amended claim at a concrete store and scan. -/
theorem rescan_archival_spec_witness :
    c3scan.root_path = "/r" ∧
    (((saveScanResults (saveScanResults ⟨[], [], 1⟩ c3scan).1 c3scan).1.scan_results.filter
        (fun r => r.root_path == "/r" && r.status != "archived")).length = 1 ∧
     1 ≤ ((saveScanResults (saveScanResults ⟨[], [], 1⟩ c3scan).1 c3scan).1.scan_results.filter
        (fun r => r.root_path == "/r" && r.status == "archived")).length) :=
  ⟨rfl, (rescan_archival_spec ⟨[], [], 1⟩ c3scan c3scan "/r" rfl rfl).1⟩

/-! ## `services/database_service.py`: `scan_history.db` and
`cleanup_old_scans` (C9)

The `scans`/`files` schema created by `_migrate_database`, with the five
metadata columns added by later migrations.  `files.scan_id` carries
`ON DELETE CASCADE`, but SQLite enforces foreign keys (and hence fires
cascades) only on connections where `PRAGMA foreign_keys = ON` was
executed; `init_db` runs the pragma on its own connection, while
`cleanup_old_scans` opens a fresh `sqlite3.connect` and never does. -/

structure HScanRow where
  id : Nat
  scan_date : String
  root_path : String
  total_files : Nat
  total_size : String
deriving DecidableEq

structure HFileRow where
  id : Nat
  scan_id : Nat
  name : String
  path : String
  size : String
  created : String
  modified : String
  extension : String
  tags : Option String
  category : Option String
  patterns : Option String
  subcategory : Option String
  parsed_info : Option String
  directory_info : Option String
deriving DecidableEq

structure HistDB where
  scans : List HScanRow
  files : List HFileRow
  version : Nat
deriving DecidableEq

/-- `DELETE FROM scans WHERE scan_date < ?` on one connection:
`scan_date < cutoff` is text comparison of `"%Y-%m-%d %H:%M:%S"` strings;
the `files` cascade fires only when the connection enforces foreign
keys. -/
def deleteScansBefore (fkEnforced : Bool) (db : HistDB) (cutoff : String) : HistDB :=
  let deleted := db.scans.filter (fun s => strLtB s.scan_date cutoff)
  { db with
    scans := db.scans.filter (fun s => !strLtB s.scan_date cutoff)
    files := if fkEnforced then
        db.files.filter (fun f => !(deleted.any (fun s => s.id == f.scan_id)))
      else db.files }

/-- `DatabaseService.cleanup_old_scans` (run from `__init__` with
`cutoff = now - 30 days`): its fresh connection never enables the
foreign-keys pragma, so the cascade is off. -/
def cleanupOldScans (db : HistDB) (cutoff : String) : HistDB :=
  deleteScansBefore false db cutoff

def orphanDemoDB : HistDB :=
  { scans := [{ id := 1, scan_date := "2020-01-01 00:00:00", root_path := "/r",
                total_files := 1, total_size := "1 B" }]
    files := [{ id := 10, scan_id := 1, name := "a.txt", path := "a.txt",
                size := "1 B", created := "2020-01-01 00:00:00",
                modified := "2020-01-01 00:00:00", extension := ".txt",
                tags := none, category := none, patterns := none,
                subcategory := none, parsed_info := none, directory_info := none }]
    version := 4 }

/-- C9: `cleanup_old_scans` deletes the scan rows older than the cutoff,
but — the cleanup connection never enabling SQLite's `foreign_keys`
pragma — the declared `ON DELETE CASCADE` does not fire, so the file rows
of deleted scans survive as orphans (shown generally, and on a store with
one 2020 scan and its file row against a 2025 cutoff). -/
theorem cleanup_old_scans_no_cascade :
    (∀ (db : HistDB) (cutoff : String),
      (cleanupOldScans db cutoff).files = db.files ∧
      (cleanupOldScans db cutoff).scans =
        db.scans.filter (fun s => !strLtB s.scan_date cutoff)) ∧
    (cleanupOldScans orphanDemoDB "2025-09-12 00:00:00").scans = [] ∧
    (cleanupOldScans orphanDemoDB "2025-09-12 00:00:00").files = orphanDemoDB.files := by
  refine ⟨fun db cutoff => ⟨rfl, rfl⟩, by decide, by decide⟩

end FileScanner
